import Mathlib

/-!
Verification of the product data model, CDN address resolution, catalog
client and image download pipeline of `src/api/models.py` and
`src/api/main.py` (wb_private_api_py).

The raw JSON product record is embedded as a structure whose `Option`
fields model possibly-missing dictionary keys.  The defaults that
`Product.__init__` applies at construction time (`sizes=[]`, `colors=[]`,
`pics=0`) are baked into the field types, exactly as the source applies
them once at construction; the defaults that methods apply at access time
(`size.get('price', {})`, `price_data.get('product', 0)`, ...) are applied
at each access via `Option.getD`, mirroring the source line by line.
Python float division of minor currency units is embedded as exact
division in `ℚ`; Python `round` (banker's rounding) is `pyRound` below.
-/

namespace WB

/-- Price block of one size entry: keys `product`, `basic`, `logistics` of
`sizes[k]['price']`, minor currency units. A `none` field is a missing key. -/
structure PriceBlock where
  product : Option Nat
  basic : Option Nat
  logistics : Option Nat
deriving Repr, DecidableEq

/-- The empty dict default of `size.get('price', {})`. -/
def PriceBlock.empty : PriceBlock := ⟨none, none, none⟩

/-- One stock entry of a size: keys `wh` and `qty` (the only ones the
verified operations read). Quantities are non-negative counts. -/
structure StockEntry where
  wh : Option Nat
  qty : Option Nat
deriving Repr, DecidableEq

/-- One entry of the `sizes` array.  Fields are the keys read by the
verified operations; a `none` field is a missing key. -/
structure SizeEntry where
  name : Option String
  origName : Option String
  price : Option PriceBlock
  stocks : Option (List StockEntry)
  time1 : Option Nat
  time2 : Option Nat
  dist : Option Nat
deriving Repr, DecidableEq

/-- One entry of the `colors` array. -/
structure ColorEntry where
  name : Option String
deriving Repr, DecidableEq

/-- The product record as extracted by `Product.__init__`: `id` has no
default (`product_data.get('id')`, so possibly `None`), `sizes` and
`colors` default to `[]`, `pics` defaults to `0` and is an integer count.
Scalar fields not read by any verified operation are omitted. -/
structure Product where
  id : Option Nat
  sizes : List SizeEntry
  colors : List ColorEntry
  pics : Int
deriving Repr, DecidableEq

/-! ## AddressResolver: bucket / vol / part (models.py lines 143-185) -/

/-- The bucket chain that appears inline (identically) in
`get_main_image_url` (lines 148-179) and `get_all_images_urls`
(lines 194-225). -/
def basket (id : Nat) : String :=
  if id ≤ 143 then "01"
  else if id ≤ 287 then "02"
  else if id ≤ 431 then "03"
  else if id ≤ 719 then "04"
  else if id ≤ 1007 then "05"
  else if id ≤ 1061 then "06"
  else if id ≤ 1115 then "07"
  else if id ≤ 1169 then "08"
  else if id ≤ 1313 then "09"
  else if id ≤ 1601 then "10"
  else if id ≤ 1655 then "11"
  else if id ≤ 1919 then "12"
  else if id ≤ 2045 then "13"
  else if id ≤ 2189 then "14"
  else if id ≤ 2405 then "15"
  else "16"

/-- Decimal digit count computed with explicit fuel so that it reduces in
the kernel; `digitLenAux (n+1) n` equals Python `len(str(n))` for every
natural `n` (including `n = 0`, whose numeral "0" has one digit). -/
def digitLenAux : Nat → Nat → Nat
  | 0, _ => 0
  | fuel+1, n => if n < 10 then 1 else digitLenAux fuel (n / 10) + 1

/-- Python `len(str(n))` for a natural number `n`. -/
def digitLen (n : Nat) : Nat := digitLenAux (n + 1) n

/-- `vol = int(id_str[:-5]) if len(id_str) > 5 else 0` (models.py lines
182, 228): dropping the last 5 digits of the decimal numeral of `id` is
integer division by 10^5. -/
def vol (id : Nat) : Nat := if 5 < digitLen id then id / 100000 else 0

/-- `part = int(id_str[:-3]) if len(id_str) > 3 else self.id` (models.py
lines 183, 229): dropping the last 3 digits is integer division by 10^3. -/
def part (id : Nat) : Nat := if 3 < digitLen id then id / 1000 else id

/-- The image URL template of models.py lines 185 and 232. -/
def imageUrl (id : Nat) (size : String) (i : Nat) : String :=
  let b := basket id
  let v := vol id
  let pt := part id
  s!"https://basket-{b}.wbbasket.ru/vol{v}/part{pt}/{id}/images/{size}/{i}.webp"

/-! ## Image URL methods (models.py lines 137-234)

The Python guard `self.pics and self.pics > 0 and self.id` holds exactly
when `pics > 0` (an `int` is truthy iff non-zero) and `id` is present and
non-zero. -/

/-- `Product.get_main_image_url` (models.py lines 137-186). -/
def Product.get_main_image_url (p : Product) (size : String) : Option String :=
  match p.id with
  | some id => if 0 < p.pics ∧ id ≠ 0 then some (imageUrl id size 1) else none
  | none => none

/-- `Product.get_all_images_urls` (models.py lines 188-234); the loop is
`for i in range(1, min(self.pics + 1, 15))`, i.e. the indices
`1, ..., min(pics + 1, 15) - 1`. -/
def Product.get_all_images_urls (p : Product) (size : String) : List String :=
  match p.id with
  | some id =>
    if 0 < p.pics ∧ id ≠ 0 then
      (List.range' 1 (min (p.pics.toNat + 1) 15 - 1)).map (fun i => imageUrl id size i)
    else []
  | none => []

/-! ## Price views (models.py lines 33-65)

A Python `return x / 100 if x else None` on an integer amount `x` returns
`None` exactly when the amount is `0` (or the key was missing, which the
preceding `.get(..., 0)` turns into `0`). -/

/-- `Product.get_price` (models.py lines 33-39). -/
def Product.get_price (p : Product) : Option ℚ :=
  match p.sizes with
  | sz :: _ =>
    let price_data := sz.price.getD PriceBlock.empty
    let product_price := price_data.product.getD 0
    if product_price ≠ 0 then some ((product_price : ℚ) / 100) else none
  | [] => none

/-- `Product.get_basic_price` (models.py lines 41-47). -/
def Product.get_basic_price (p : Product) : Option ℚ :=
  match p.sizes with
  | sz :: _ =>
    let price_data := sz.price.getD PriceBlock.empty
    let basic_price := price_data.basic.getD 0
    if basic_price ≠ 0 then some ((basic_price : ℚ) / 100) else none
  | [] => none

/-- `Product.get_logistics_price` (models.py lines 49-55). -/
def Product.get_logistics_price (p : Product) : Option ℚ :=
  match p.sizes with
  | sz :: _ =>
    let price_data := sz.price.getD PriceBlock.empty
    let logistics_price := price_data.logistics.getD 0
    if logistics_price ≠ 0 then some ((logistics_price : ℚ) / 100) else none
  | [] => none

/-- Python `round` on an exact rational value: round half to even. -/
def pyRound (q : ℚ) : ℤ :=
  let f : ℤ := ⌊q⌋
  let frac : ℚ := q - (f : ℚ)
  if frac < 1 / 2 then f
  else if 1 / 2 < frac then f + 1
  else if f % 2 = 0 then f else f + 1

/-- `Product.get_discount_percent` (models.py lines 57-65).  The Python
guard `basic_price and current_price and basic_price > current_price`
holds exactly when both are present (not `None`), both truthy (non-zero
floats), and the comparison holds. -/
def Product.get_discount_percent (p : Product) : Option ℤ :=
  match p.get_basic_price, p.get_price with
  | some basic_price, some current_price =>
    if basic_price ≠ 0 ∧ current_price ≠ 0 ∧ current_price < basic_price then
      some (pyRound ((basic_price - current_price) / basic_price * 100))
    else none
  | _, _ => none

/-! ## Color / size / delivery views (models.py lines 67-84, 244-252) -/

/-- `Product.get_available_colors` (models.py lines 67-69): keep the
`name` of every color whose `name` value is truthy (present, non-empty). -/
def Product.get_available_colors (p : Product) : List String :=
  p.colors.filterMap (fun color =>
    let n := color.name.getD ""
    if n ≠ "" then some n else none)

/-- `Product.get_available_sizes` (models.py lines 75-84): keep a size's
label (`name`, falling back to `origName`, falling back to `""`) when some
stock entry has `qty > 0` and the label is truthy and not the sentinel
`"0"`. -/
def Product.get_available_sizes (p : Product) : List String :=
  p.sizes.filterMap (fun sz =>
    let stocks := sz.stocks.getD []
    if stocks.any (fun stock => 0 < stock.qty.getD 0) then
      let size_name := sz.name.getD (sz.origName.getD "")
      if size_name ≠ "" ∧ size_name ≠ "0" then some size_name else none
    else none)

/-- The dict returned by `get_delivery_info`. -/
structure DeliveryInfo where
  time1 : Nat
  time2 : Nat
  distance : Nat
deriving Repr, DecidableEq

/-- `Product.get_delivery_info` (models.py lines 244-252). -/
def Product.get_delivery_info (p : Product) : DeliveryInfo :=
  match p.sizes with
  | sz :: _ => ⟨sz.time1.getD 0, sz.time2.getD 0, sz.dist.getD 0⟩
  | [] => ⟨0, 0, 0⟩

/-! ## CatalogClient (main.py lines 14-24)

The network fetch itself is an external collaborator; the decoded JSON
envelope is the input.  The only failure raised by `get_product`'s own
logic is a ValueError whose message names the requested identifier, the
"NotFound" condition of the spec, whose message carries the requested
identifier; it is embedded as a dedicated error value carrying that
identifier. -/

/-- The failure conditions `WildberriesClient.get_product` itself raises. -/
inductive ClientError where
  | notFound (product_id : String)
deriving Repr, DecidableEq

/-- The decoded listing envelope: `json_response.get("products")`. -/
structure ListingResponse where
  products : Option (List Product)

/-- `WildberriesClient.get_product` (main.py lines 14-24), given the
decoded envelope.  `json_response.get("products") and len(...) > 0` is
truthy exactly when the array is present and non-empty. -/
def WildberriesClient.get_product (product_id : String) (resp : ListingResponse) :
    Except ClientError Product :=
  match resp.products with
  | some (product_data :: _) => Except.ok product_data
  | _ => Except.error (ClientError.notFound product_id)

/-! ## Download pipeline (models.py lines 353-414)

Each URL's fetch-and-write is an effect; it is modelled by an oracle
giving the outcome per URL.  `_download_single_image` wraps the whole
fetch, read and write in `try/except`, so it never raises: a response
with status 200 whose body is written yields the file path, any other
status falls through to `return None`, and any exception (transport or
write error) is caught and yields `None`.  `asyncio.gather` with
`return_exceptions=True` keeps task order and isolates failures; since
the per-task coroutine never raises, every gathered result is a path or
`None`, and the collection loop keeps results that are truthy strings. -/

/-- Outcome of fetching one URL and writing its body. -/
inductive FetchOutcome where
  | ok (status : Nat)
  | raised
deriving Repr, DecidableEq

/-- A fetch succeeded end-to-end iff it returned HTTP 200 (and no
exception occurred while reading or writing the body). -/
def FetchOutcome.isSuccess : FetchOutcome → Bool
  | .ok status => status == 200
  | .raised => false

/-- `Product._download_single_image` (models.py lines 392-414): on a
status-200 response the body is written and the path returned; any other
status falls through to `return None`; exceptions are caught and give
`None`. -/
def download_single_image (fetch : String → FetchOutcome) (url file_path : String) :
    Option String :=
  match fetch url with
  | .ok status => if status = 200 then some file_path else none
  | .raised => none

/-- Python `str(self.id)` where `id` may be `None`. -/
def pyStrOfOptNat : Option Nat → String
  | some n => toString n
  | none => "None"

/-- `os.path.join(folder_path, filename)` for the simple shapes used here. -/
def osPathJoin (folder filename : String) : String :=
  if folder = "" then filename else folder ++ "/" ++ filename

/-- The filename `f"{self.id}_{i}.webp"` joined to the folder
(models.py lines 377-378). -/
def imageFilePath (pid : Option Nat) (folder_path : String) (i : Nat) : String :=
  osPathJoin folder_path (pyStrOfOptNat pid ++ "_" ++ toString i ++ ".webp")

/-- `Product.download_all_images` (models.py lines 353-390): slice the URL
list to `max_images` first, return `[]` when empty, launch one task per
(1-based index, url), and keep, in task order, every result that is a
truthy string.  Directory creation is an idempotent external effect with
no bearing on the returned value. -/
def Product.download_all_images (p : Product) (fetch : String → FetchOutcome)
    (folder_path image_size : String) (max_images : Nat) : List String :=
  let image_urls := (p.get_all_images_urls image_size).take max_images
  if image_urls.isEmpty then []
  else
    let results := (image_urls.enumFrom 1).map
      (fun e => download_single_image fetch e.2 (imageFilePath p.id folder_path e.1))
    results.foldr (fun result acc =>
      match result with
      | some s => if s ≠ "" then s :: acc else acc
      | none => acc) []

/-! ## Spec-side definitions

These follow the words of the specification (not the source) and are
compared with the source-derived definitions by the refinement theorems
below. -/

/-- The spec's "fixed ascending table of `(upper_bound, bucket_label)`
pairs". -/
def bucketTable : List (Nat × String) :=
  [(143, "01"), (287, "02"), (431, "03"), (719, "04"), (1007, "05"), (1061, "06"),
   (1115, "07"), (1169, "08"), (1313, "09"), (1601, "10"), (1655, "11"), (1919, "12"),
   (2045, "13"), (2189, "14"), (2405, "15")]

/-- The spec's lookup: "the smallest upper bound ≥ id determines the
label; if id exceeds every bound, the overflow label 16 applies".  On the
ascending table the first satisfying entry has the smallest bound. -/
def bucketLookup (id : Nat) : String :=
  ((bucketTable.find? (fun e => decide (id ≤ e.1))).map Prod.snd).getD "16"

/-! ## Concrete sample records used by the witnesses -/

/-- A size entry whose price block has `product` 15050 and `basic` 20000. -/
def sampleSizePriced : SizeEntry :=
  ⟨none, none, some ⟨some 15050, some 20000, none⟩, none, none, none, none⟩

/-- A size entry whose price block has `product` 0. -/
def sampleSizeZeroPrice : SizeEntry :=
  ⟨none, none, some ⟨some 0, none, none⟩, none, none, none, none⟩

/-- A size entry with `product` 15000 and `basic` 20000 (25% discount). -/
def sampleSizeDiscount : SizeEntry :=
  ⟨none, none, some ⟨some 15000, some 20000, none⟩, none, none, none, none⟩

def samplePricedProduct : Product :=
  { id := some 1, sizes := [sampleSizePriced], colors := [], pics := 0 }

def sampleZeroPriceProduct : Product :=
  { id := some 1, sizes := [sampleSizeZeroPrice], colors := [], pics := 0 }

def sampleDiscountProduct : Product :=
  { id := some 1, sizes := [sampleSizeDiscount], colors := [], pics := 0 }

/-- A product with no size entries. -/
def sampleNoSizesProduct : Product :=
  { id := some 1, sizes := [], colors := [], pics := 0 }

/-- A product with 20 pictures. -/
def sampleManyPicsProduct : Product :=
  { id := some 7, sizes := [], colors := [], pics := 20 }

/-- A product with 5 pictures. -/
def sampleFivePicsProduct : Product :=
  { id := some 9, sizes := [], colors := [], pics := 5 }

/-- A fetch oracle under which the third image URL of
`sampleFivePicsProduct` gets HTTP 404 and every other URL gets HTTP 200. -/
def sampleFetch (url : String) : FetchOutcome :=
  if url = imageUrl 9 "c516x688" 3 then FetchOutcome.ok 404 else FetchOutcome.ok 200

/-- A listing envelope whose `products` array is empty. -/
def sampleEmptyListing : ListingResponse := ⟨some []⟩

/-! ## Helper lemmas -/

theorem digitLenAux_congr :
    ∀ (fuel₁ fuel₂ n : Nat), n < fuel₁ → n < fuel₂ →
      digitLenAux fuel₁ n = digitLenAux fuel₂ n := by
  intro fuel₁
  induction fuel₁ with
  | zero => intro _ _ h _; omega
  | succ f ih =>
    intro fuel₂ n h1 h2
    cases fuel₂ with
    | zero => omega
    | succ f2 =>
      simp only [digitLenAux]
      by_cases h : n < 10
      · simp [h]
      · simp only [h, if_false]
        rw [ih f2 (n / 10) (by omega) (by omega)]

theorem digitLen_of_lt_ten {n : Nat} (h : n < 10) : digitLen n = 1 := by
  simp [digitLen, digitLenAux, h]

theorem digitLen_of_ten_le {n : Nat} (h : 10 ≤ n) :
    digitLen n = digitLen (n / 10) + 1 := by
  unfold digitLen
  conv_lhs => rw [digitLenAux]
  rw [if_neg (by omega)]
  rw [digitLenAux_congr n (n / 10 + 1) (n / 10) (by omega) (by omega)]

theorem digitLen_le_iff : ∀ (n k : Nat), digitLen n ≤ k + 1 ↔ n < 10 ^ (k + 1) := by
  intro n
  induction n using Nat.strong_induction_on with
  | _ n ih =>
    intro k
    by_cases h : n < 10
    · rw [digitLen_of_lt_ten h]
      constructor
      · intro _
        calc n < 10 ^ 1 := by omega
          _ ≤ 10 ^ (k + 1) := Nat.pow_le_pow_right (by omega) (by omega)
      · intro _; omega
    · rw [digitLen_of_ten_le (by omega)]
      cases k with
      | zero =>
        constructor
        · intro hle
          have h1 : 1 ≤ digitLen (n / 10) := by
            by_cases hd : n / 10 < 10
            · rw [digitLen_of_lt_ten hd]
            · rw [digitLen_of_ten_le (by omega)]; omega
          omega
        · intro hlt; omega
      | succ k' =>
        have hrec := ih (n / 10) (by omega) k'
        have hdiv : n / 10 < 10 ^ (k' + 1) ↔ n < 10 ^ (k' + 1 + 1) := by
          rw [Nat.div_lt_iff_lt_mul (by omega)]
          constructor <;> intro hh <;>
            [skip; skip] <;>
            · have hp : 10 ^ (k' + 1 + 1) = 10 ^ (k' + 1) * 10 := by ring
              omega
        constructor
        · intro hle
          exact (hdiv.mp (hrec.mp (by omega)))
        · intro hlt
          have := hrec.mpr (hdiv.mpr hlt)
          omega

theorem digitLen_gt_five_iff (n : Nat) : 5 < digitLen n ↔ 100000 ≤ n := by
  have := digitLen_le_iff n 4
  norm_num at this
  omega

theorem digitLen_gt_three_iff (n : Nat) : 3 < digitLen n ↔ 1000 ≤ n := by
  have := digitLen_le_iff n 2
  norm_num at this
  omega

/-! ## Claim theorems -/

/-- C1: for every product identifier, the bucket chain of
`get_main_image_url` / `get_all_images_urls` (embedded once as `basket`)
picks the label of the smallest table upper bound that is `≥ id` from the
fixed ascending table, with the overflow label "16" past every bound; at
each documented boundary and one past it the labels are as documented. -/
theorem basket_refines_bucket_table :
    (∀ id : Nat, basket id = bucketLookup id) ∧
    List.Chain' (fun a b => a.1 < b.1) bucketTable ∧
    basket 143 = "01" ∧ basket 144 = "02" ∧ basket 287 = "02" ∧ basket 288 = "03" ∧
    basket 2405 = "15" ∧ basket 2406 = "16" := by
  refine ⟨?_, by norm_num [bucketTable, List.chain'_cons], rfl, rfl, rfl, rfl, rfl, rfl⟩
  intro id
  unfold basket bucketLookup bucketTable
  by_cases h1 : id ≤ 143
  · simp [List.find?, h1]
  by_cases h2 : id ≤ 287
  · simp [List.find?, h1, h2]
  by_cases h3 : id ≤ 431
  · simp [List.find?, h1, h2, h3]
  by_cases h4 : id ≤ 719
  · simp [List.find?, h1, h2, h3, h4]
  by_cases h5 : id ≤ 1007
  · simp [List.find?, h1, h2, h3, h4, h5]
  by_cases h6 : id ≤ 1061
  · simp [List.find?, h1, h2, h3, h4, h5, h6]
  by_cases h7 : id ≤ 1115
  · simp [List.find?, h1, h2, h3, h4, h5, h6, h7]
  by_cases h8 : id ≤ 1169
  · simp [List.find?, h1, h2, h3, h4, h5, h6, h7, h8]
  by_cases h9 : id ≤ 1313
  · simp [List.find?, h1, h2, h3, h4, h5, h6, h7, h8, h9]
  by_cases h10 : id ≤ 1601
  · simp [List.find?, h1, h2, h3, h4, h5, h6, h7, h8, h9, h10]
  by_cases h11 : id ≤ 1655
  · simp [List.find?, h1, h2, h3, h4, h5, h6, h7, h8, h9, h10, h11]
  by_cases h12 : id ≤ 1919
  · simp [List.find?, h1, h2, h3, h4, h5, h6, h7, h8, h9, h10, h11, h12]
  by_cases h13 : id ≤ 2045
  · simp [List.find?, h1, h2, h3, h4, h5, h6, h7, h8, h9, h10, h11, h12, h13]
  by_cases h14 : id ≤ 2189
  · simp [List.find?, h1, h2, h3, h4, h5, h6, h7, h8, h9, h10, h11, h12, h13, h14]
  by_cases h15 : id ≤ 2405
  · simp [List.find?, h1, h2, h3, h4, h5, h6, h7, h8, h9, h10, h11, h12, h13, h14, h15]
  · simp [List.find?, h1, h2, h3, h4, h5, h6, h7, h8, h9, h10, h11, h12, h13, h14, h15]

/-- C2: `vol` is the identifier with its last 5 decimal digits dropped
(so 0 whenever the identifier has 5 or fewer digits), `part` is the
identifier with its last 3 decimal digits dropped (the identifier itself
when it has 3 or fewer digits), including the documented examples. -/
theorem vol_part_drop_digits :
    (∀ id : Nat, vol id = id / 100000) ∧
    (∀ id : Nat, part id = if 1000 ≤ id then id / 1000 else id) ∧
    vol 12345678 = 123 ∧ part 12345678 = 12345 ∧ vol 123 = 0 ∧ part 12 = 12 := by
  have hv : ∀ id : Nat, vol id = id / 100000 := by
    intro id
    unfold vol
    by_cases h : 5 < digitLen id
    · rw [if_pos h]
    · rw [if_neg h]
      have : id < 100000 := by
        have := digitLen_gt_five_iff id
        omega
      omega
  have hp : ∀ id : Nat, part id = if 1000 ≤ id then id / 1000 else id := by
    intro id
    unfold part
    have := digitLen_gt_three_iff id
    by_cases h : 3 < digitLen id
    · rw [if_pos h, if_pos (by omega)]
    · rw [if_neg h, if_neg (by omega)]
  refine ⟨hv, hp, ?_, ?_, ?_, ?_⟩
  · rw [hv]
  · rw [hp]; norm_num
  · rw [hv]
  · rw [hp]; norm_num

theorem nat_div_hundred_pos {a : Nat} (ha : a ≠ 0) : (0 : ℚ) < (a : ℚ) / 100 := by
  apply div_pos
  · exact_mod_cast Nat.pos_of_ne_zero ha
  · norm_num

theorem get_price_pos (p : Product) (q : ℚ) (h : p.get_price = some q) : 0 < q := by
  unfold Product.get_price at h
  cases hs : p.sizes with
  | nil => rw [hs] at h; exact absurd h (by simp)
  | cons sz rest =>
    rw [hs] at h
    simp only at h
    by_cases ha : ((sz.price.getD PriceBlock.empty).product.getD 0) ≠ 0
    · rw [if_pos ha] at h
      have hq : ((((sz.price.getD PriceBlock.empty).product.getD 0 : Nat) : ℚ) / 100) = q :=
        Option.some.inj h
      rw [← hq]
      exact nat_div_hundred_pos ha
    · rw [if_neg ha] at h
      exact absurd h (by simp)

theorem get_basic_price_pos (p : Product) (q : ℚ) (h : p.get_basic_price = some q) : 0 < q := by
  unfold Product.get_basic_price at h
  cases hs : p.sizes with
  | nil => rw [hs] at h; exact absurd h (by simp)
  | cons sz rest =>
    rw [hs] at h
    simp only at h
    by_cases ha : ((sz.price.getD PriceBlock.empty).basic.getD 0) ≠ 0
    · rw [if_pos ha] at h
      have hq : ((((sz.price.getD PriceBlock.empty).basic.getD 0 : Nat) : ℚ) / 100) = q :=
        Option.some.inj h
      rw [← hq]
      exact nat_div_hundred_pos ha
    · rw [if_neg ha] at h
      exact absurd h (by simp)

/-- C3: the price view divides the first size entry's minor-unit `product`
amount by 100, is absent exactly when that amount is zero or the key or
block is missing (in which case the amount reads as zero), and is never a
present zero price. -/
theorem price_conversion_spec (p : Product) :
    (∀ q : ℚ, p.get_price = some q → 0 < q) ∧
    (∀ sz rest, p.sizes = sz :: rest →
      (((sz.price.getD PriceBlock.empty).product.getD 0 = 0 → p.get_price = none) ∧
       (∀ a : Nat, (sz.price.getD PriceBlock.empty).product.getD 0 = a → a ≠ 0 →
         p.get_price = some ((a : ℚ) / 100)))) := by
  refine ⟨fun q h => get_price_pos p q h, ?_⟩
  intro sz rest hs
  unfold Product.get_price
  rw [hs]
  simp only
  constructor
  · intro hz
    rw [if_neg (by simpa using hz)]
  · intro a ha hane
    rw [ha, if_pos hane]

/-- Witness for C3: a first size entry with amount 15050 yields the price
150.5; an amount of 0 yields an absent price. -/
theorem price_conversion_spec_witness :
    samplePricedProduct.get_price = some (150.5 : ℚ) ∧
    sampleZeroPriceProduct.get_price = none := by
  constructor
  · have h := ((price_conversion_spec samplePricedProduct).2
      sampleSizePriced [] rfl).2 15050 rfl (by norm_num)
    rw [h]
    norm_num
  · exact ((price_conversion_spec sampleZeroPriceProduct).2
      sampleSizeZeroPrice [] rfl).1 rfl

/-- C4: the discount percentage is present exactly when both the basic
and the current price are present and basic > current (present prices are
always positive, so Python truthiness adds nothing), and then equals the
rounded integer percentage drop. -/
theorem discount_percent_spec (p : Product) :
    (p.get_discount_percent.isSome ↔
      ∃ b c : ℚ, p.get_basic_price = some b ∧ p.get_price = some c ∧ c < b) ∧
    (∀ b c : ℚ, p.get_basic_price = some b → p.get_price = some c → c < b →
      p.get_discount_percent = some (pyRound ((b - c) / b * 100))) := by
  have hthen : ∀ b c : ℚ, p.get_basic_price = some b → p.get_price = some c → c < b →
      p.get_discount_percent = some (pyRound ((b - c) / b * 100)) := by
    intro b c hb hc hlt
    have hbp := get_basic_price_pos p b hb
    have hcp := get_price_pos p c hc
    unfold Product.get_discount_percent
    rw [hb, hc]
    simp only
    rw [if_pos ⟨ne_of_gt hbp, ne_of_gt hcp, hlt⟩]
  refine ⟨⟨?_, ?_⟩, hthen⟩
  · intro h
    unfold Product.get_discount_percent at h
    cases hb : p.get_basic_price with
    | none => rw [hb] at h; simp at h
    | some b =>
      cases hc : p.get_price with
      | none => rw [hb, hc] at h; simp at h
      | some c =>
        rw [hb, hc] at h
        simp only at h
        by_cases hcond : b ≠ 0 ∧ c ≠ 0 ∧ c < b
        · exact ⟨b, c, rfl, rfl, hcond.2.2⟩
        · rw [if_neg hcond] at h; simp at h
  · rintro ⟨b, c, hb, hc, hlt⟩
    rw [hthen b c hb hc hlt]
    rfl

/-- Witness for C4: basic amount 20000 and current amount 15000 give a
discount of 25 percent. -/
theorem discount_percent_spec_witness :
    sampleDiscountProduct.get_discount_percent = some 25 := by
  have hb : sampleDiscountProduct.get_basic_price = some (200 : ℚ) := by
    norm_num [Product.get_basic_price, sampleDiscountProduct, sampleSizeDiscount,
      PriceBlock.empty]
  have hc : sampleDiscountProduct.get_price = some (150 : ℚ) := by
    norm_num [Product.get_price, sampleDiscountProduct, sampleSizeDiscount,
      PriceBlock.empty]
  have h := (discount_percent_spec sampleDiscountProduct).2 200 150 hb hc (by norm_num)
  rw [h]
  norm_num [pyRound]

/-- C5: with a present (non-zero) identifier and a positive picture
count, `get_all_images_urls` returns exactly `min pics 14` URLs, the
1-based indices in order capped at 14 however large `pics` is; it returns
the empty list when `pics ≤ 0` or the identifier is absent. -/
theorem all_images_urls_cap (p : Product) (size : String) :
    (∀ n : Nat, p.id = some n → n ≠ 0 → 0 < p.pics →
      p.get_all_images_urls size
          = (List.range' 1 (min p.pics.toNat 14)).map (fun i => imageUrl n size i) ∧
      (p.get_all_images_urls size).length = min p.pics.toNat 14) ∧
    (p.pics ≤ 0 → p.get_all_images_urls size = []) ∧
    (p.id = none → p.get_all_images_urls size = []) := by
  refine ⟨?_, ?_, ?_⟩
  · intro n hid hn hpics
    unfold Product.get_all_images_urls
    rw [hid]
    simp only
    rw [if_pos ⟨hpics, hn⟩]
    have hcnt : min (p.pics.toNat + 1) 15 - 1 = min p.pics.toNat 14 := by omega
    rw [hcnt]
    exact ⟨rfl, by simp⟩
  · intro hpics
    unfold Product.get_all_images_urls
    cases hid : p.id with
    | none => rfl
    | some n =>
      simp only
      rw [if_neg (by intro hc; omega)]
  · intro hid
    unfold Product.get_all_images_urls
    rw [hid]

/-- Witness for C5: a product with 20 pictures yields exactly the 14 URLs
with indices 1 through 14. -/
theorem all_images_urls_cap_witness :
    sampleManyPicsProduct.get_all_images_urls "c516x688"
        = (List.range' 1 14).map (fun i => imageUrl 7 "c516x688" i) ∧
    (sampleManyPicsProduct.get_all_images_urls "c516x688").length = 14 := by
  have h := (all_images_urls_cap sampleManyPicsProduct "c516x688").1 7 rfl
    (by norm_num) (by norm_num [sampleManyPicsProduct])
  refine ⟨h.1.trans ?_, h.2.trans ?_⟩ <;> norm_num [sampleManyPicsProduct]

/-- C8: a product record with an empty size sequence yields no current,
basic or logistics price, an empty available-sizes list, and a delivery
info whose fields are all zero. -/
theorem empty_sizes_views (p : Product) (h : p.sizes = []) :
    p.get_price = none ∧ p.get_basic_price = none ∧ p.get_logistics_price = none ∧
    p.get_available_sizes = [] ∧ p.get_delivery_info = ⟨0, 0, 0⟩ := by
  unfold Product.get_price Product.get_basic_price Product.get_logistics_price
    Product.get_available_sizes Product.get_delivery_info
  rw [h]
  exact ⟨rfl, rfl, rfl, rfl, rfl⟩

/-- Witness for C8 at a concrete product with no size entries. -/
theorem empty_sizes_views_witness :
    sampleNoSizesProduct.get_price = none ∧
    sampleNoSizesProduct.get_basic_price = none ∧
    sampleNoSizesProduct.get_logistics_price = none ∧
    sampleNoSizesProduct.get_available_sizes = [] ∧
    sampleNoSizesProduct.get_delivery_info = ⟨0, 0, 0⟩ :=
  empty_sizes_views sampleNoSizesProduct rfl

/-- C6: a listing envelope with a missing or empty `products` array makes
`get_product` fail with the NotFound condition carrying the requested
identifier — and with no other kind of failure — while a non-empty array
yields its first entry as the product. -/
theorem get_product_not_found (product_id : String) (resp : ListingResponse) :
    (resp.products = none ∨ resp.products = some [] →
      WildberriesClient.get_product product_id resp
          = Except.error (ClientError.notFound product_id)) ∧
    (∀ pd rest, resp.products = some (pd :: rest) →
      WildberriesClient.get_product product_id resp = Except.ok pd) ∧
    (∀ e, WildberriesClient.get_product product_id resp = Except.error e →
      e = ClientError.notFound product_id) := by
  unfold WildberriesClient.get_product
  refine ⟨?_, ?_, ?_⟩
  · rintro (h | h) <;> rw [h]
  · intro pd rest h
    rw [h]
  · intro e h
    cases hp : resp.products with
    | none => rw [hp] at h; exact (Except.error.inj h).symm
    | some l =>
      cases l with
      | nil => rw [hp] at h; exact (Except.error.inj h).symm
      | cons pd rest => rw [hp] at h; exact absurd h (by simp)

/-- Witness for C6: an empty `products` array gives NotFound carrying the
requested identifier. -/
theorem get_product_not_found_witness :
    WildberriesClient.get_product "12345" sampleEmptyListing
        = Except.error (ClientError.notFound "12345") :=
  (get_product_not_found "12345" sampleEmptyListing).1 (Or.inr rfl)

theorem filterMap_eq_filter_map {α β : Type} (f : α → Option β) (q : α → Bool) (g : α → β)
    (hpt : ∀ a, f a = if q a then some (g a) else none) :
    ∀ l : List α, l.filterMap f = (l.filter q).map g := by
  intro l
  induction l with
  | nil => rfl
  | cons a t ih =>
    rw [List.filterMap_cons, List.filter_cons, hpt a]
    by_cases hq : q a
    · simp [hq, ih]
    · simp [hq, ih]

theorem any_pos_iff_sum_ne_zero (l : List StockEntry) :
    (l.any (fun stock => 0 < stock.qty.getD 0)) = true ↔
      (l.map (fun stock => stock.qty.getD 0)).sum ≠ 0 := by
  rw [List.any_eq_true, Ne, List.sum_eq_zero_iff]
  constructor
  · rintro ⟨st, hmem, hpos⟩ hall
    have := hall (st.qty.getD 0) (List.mem_map_of_mem _ hmem)
    simp at hpos
    omega
  · intro h
    by_contra hc
    push_neg at hc
    refine h ?_
    intro x hx
    obtain ⟨st, hmem, heq⟩ := List.mem_map.mp hx
    have := hc st hmem
    simp at this
    omega

/-- C9: `get_available_sizes` is exactly the in-order list of labels of
the size entries whose stock quantity summed across all warehouses is
non-zero, excluding empty labels and the sentinel label "0"; and
`get_available_colors` is exactly the in-order list of names of the
colors that have a (non-empty) name. -/
theorem available_sizes_colors_spec (p : Product) :
    p.get_available_sizes
        = (p.sizes.filter (fun sz =>
              decide (((sz.stocks.getD []).map (fun stock => stock.qty.getD 0)).sum ≠ 0 ∧
                sz.name.getD (sz.origName.getD "") ≠ "" ∧
                sz.name.getD (sz.origName.getD "") ≠ "0"))).map
            (fun sz => sz.name.getD (sz.origName.getD "")) ∧
    p.get_available_colors
        = (p.colors.filter (fun color => decide (color.name.getD "" ≠ ""))).map
            (fun color => color.name.getD "") := by
  constructor
  · unfold Product.get_available_sizes
    apply filterMap_eq_filter_map
    intro sz
    simp only
    by_cases hany : ((sz.stocks.getD []).any (fun stock => 0 < stock.qty.getD 0)) = true
    · have hsum := (any_pos_iff_sum_ne_zero _).mp hany
      rw [hany]
      simp only [if_true]
      by_cases hname : sz.name.getD (sz.origName.getD "") ≠ "" ∧
          sz.name.getD (sz.origName.getD "") ≠ "0"
      · rw [if_pos hname, if_pos (by simp [hsum, hname.1, hname.2])]
      · rw [if_neg hname, if_neg ?_]
        simp only [decide_eq_true_eq]
        intro hc
        exact hname ⟨hc.2.1, hc.2.2⟩
    · have hsum : ¬ ((sz.stocks.getD []).map (fun stock => stock.qty.getD 0)).sum ≠ 0 :=
        fun h => hany ((any_pos_iff_sum_ne_zero _).mpr h)
      rw [Bool.not_eq_true] at hany
      rw [hany]
      simp only [Bool.false_eq_true, if_false]
      rw [if_neg ?_]
      simp only [decide_eq_true_eq]
      intro hc
      exact hsum hc.1
  · unfold Product.get_available_colors
    apply filterMap_eq_filter_map
    intro color
    simp only
    by_cases hn : color.name.getD "" ≠ ""
    · rw [if_pos hn, if_pos (by simp [hn])]
    · rw [if_neg hn, if_neg (by simpa using hn)]

/-- C10: `get_main_image_url` is absent exactly when `get_all_images_urls`
is empty, and otherwise equals the first element of that list (the URL
with index 1). -/
theorem main_image_is_first_of_all (p : Product) (size : String) :
    (p.get_main_image_url size = none ↔ p.get_all_images_urls size = []) ∧
    (∀ u rest, p.get_all_images_urls size = u :: rest →
      p.get_main_image_url size = some u) := by
  unfold Product.get_main_image_url Product.get_all_images_urls
  cases hid : p.id with
  | none => simp
  | some id =>
    simp only
    by_cases hg : 0 < p.pics ∧ id ≠ 0
    · rw [if_pos hg, if_pos hg]
      obtain ⟨k, hk⟩ : ∃ k, min (p.pics.toNat + 1) 15 - 1 = k + 1 := by
        refine ⟨min p.pics.toNat 14 - 1, ?_⟩
        have h1 : 0 < p.pics := hg.1
        omega
      rw [hk, List.range'_succ, List.map_cons]
      constructor
      · constructor
        · intro h; exact absurd h (by simp)
        · intro h; exact absurd h (by simp)
      · intro u rest h
        have hu : imageUrl id size 1 = u := (List.cons.inj h).1
        rw [hu]
    · rw [if_neg hg, if_neg hg]
      simp

/-- Witness for C10: a concrete product whose URL list is non-empty has
the list's first URL as its main image URL. -/
theorem main_image_is_first_of_all_witness :
    sampleFivePicsProduct.get_main_image_url "c516x688"
        = some (imageUrl 9 "c516x688" 1) := by
  refine (main_image_is_first_of_all sampleFivePicsProduct "c516x688").2
    (imageUrl 9 "c516x688" 1)
    ((List.range' 2 4).map (fun i => imageUrl 9 "c516x688" i)) ?_
  rfl

theorem imageFilePath_ne_empty (pid : Option Nat) (folder : String) (i : Nat) :
    imageFilePath pid folder i ≠ "" := by
  unfold imageFilePath osPathJoin
  intro hc
  have hlen := congrArg String.length hc
  have hwebp : (".webp" : String).length = 5 := rfl
  by_cases h : folder = "" <;> simp [h, String.length_append] at hlen <;> omega

theorem download_collect (fetch : String → FetchOutcome) (pid : Option Nat)
    (folder : String) :
    ∀ (urls : List String) (k : Nat),
      (((urls.enumFrom k).map
          (fun e => download_single_image fetch e.2 (imageFilePath pid folder e.1))).foldr
        (fun result acc =>
          match result with
          | some s => if s ≠ "" then s :: acc else acc
          | none => acc) [])
        = ((urls.enumFrom k).filter (fun e => (fetch e.2).isSuccess)).map
            (fun e => imageFilePath pid folder e.1) := by
  intro urls
  induction urls with
  | nil => intro k; rfl
  | cons u t ih =>
    intro k
    rw [List.enumFrom_cons]
    simp only [List.map_cons, List.foldr_cons, List.filter_cons]
    cases hf : fetch u with
    | raised => simpa [download_single_image, hf, FetchOutcome.isSuccess] using ih (k + 1)
    | ok status =>
      by_cases hs : status = 200
      · subst hs
        simpa [download_single_image, hf, FetchOutcome.isSuccess,
          imageFilePath_ne_empty pid folder k] using ih (k + 1)
      · simpa [download_single_image, hf, FetchOutcome.isSuccess, hs] using ih (k + 1)

theorem countP_enumFrom_snd (q : String → Bool) :
    ∀ (urls : List String) (k : Nat),
      (urls.enumFrom k).countP (fun e => q e.2) = urls.countP q := by
  intro urls
  induction urls with
  | nil => intro k; rfl
  | cons u t ih =>
    intro k
    rw [List.enumFrom_cons]
    rw [List.countP_cons, List.countP_cons, ih (k + 1)]

/-- C7: the download pipeline returns, in task order, exactly the file
paths of the sliced URLs whose fetch succeeded (HTTP 200 and no
exception); every individual failure is isolated — it only causes its own
path to be omitted, and the number of returned paths equals the number of
successful fetches.  The model is a total function: no pipeline-level
failure exists. -/
theorem download_all_images_isolation (p : Product) (fetch : String → FetchOutcome)
    (folder_path image_size : String) (max_images : Nat) :
    p.download_all_images fetch folder_path image_size max_images
        = ((((p.get_all_images_urls image_size).take max_images).enumFrom 1).filter
            (fun e => (fetch e.2).isSuccess)).map
            (fun e => imageFilePath p.id folder_path e.1) ∧
    (p.download_all_images fetch folder_path image_size max_images).length
        = ((p.get_all_images_urls image_size).take max_images).countP
            (fun url => (fetch url).isSuccess) := by
  have hmain : p.download_all_images fetch folder_path image_size max_images
      = ((((p.get_all_images_urls image_size).take max_images).enumFrom 1).filter
          (fun e => (fetch e.2).isSuccess)).map
          (fun e => imageFilePath p.id folder_path e.1) := by
    unfold Product.download_all_images
    by_cases he : ((p.get_all_images_urls image_size).take max_images).isEmpty
    · rw [if_pos he]
      rw [List.isEmpty_iff.mp he]
      rfl
    · rw [if_neg he]
      exact download_collect fetch p.id folder_path _ 1
  refine ⟨hmain, ?_⟩
  rw [hmain, List.length_map, ← List.countP_eq_length_filter]
  exact countP_enumFrom_snd (fun url => (fetch url).isSuccess) _ 1

/-- Sanity check of the download model on the documented scenario: 5 URLs
of which one returns a non-success status yield exactly 4 file paths. -/
theorem download_five_urls_one_failure :
    (sampleFivePicsProduct.download_all_images sampleFetch "images" "c516x688" 10).length
      = 4 := by
  decide

end WB
